import Mathlib

/-
Verification of the encrypted entry storage engine of the personal-diary
repository (src/diary/crypto.py, src/diary/storage.py, src/diary/auth.py).

Modelling choices, stated once here:
* Fernet is an authenticated-encryption scheme; we model it as an ideal
  cipher: a ciphertext token is an opaque value carrying the identity of
  the key that produced it together with the plaintext payload, and
  decryption succeeds exactly when the decrypting key is the producing
  key.  Fernet tokens are non-empty base64 text, so a token line is never
  blank.  A line of the backing file that is not a token (garbage text)
  never decrypts.
* Key material is abstracted to the three observables load_key inspects:
  the byte length of the stored textual encoding, whether the content
  decodes to a valid 32-byte Fernet key, and an identity used by the
  cipher model.  Fresh keys come from a counter threaded through the
  key-file state.
* Python string operations used by the parsing code (str.split first
  component, str.replace with empty replacement, str.strip) are
  re-implemented over Lean character lists by structural recursion so
  that all definitions evaluate inside the kernel.
-/

namespace Diary

/-- Content of the key file as observed by CryptoManager.load_key:
byte length of the stored encoding, whether it decodes to a valid
32-byte Fernet key (the checks of _is_valid_key beyond the length
check), and the identity of the key material for the cipher model. -/
structure KeyData where
  len : Nat
  decodable : Bool
  keyId : Nat
deriving DecidableEq

/-- State seen by CryptoManager: the key file content (none when the
file is absent or unreadable) and a supply counter for fresh keys. -/
structure KeyState where
  keyFile : Option KeyData
  ctr : Nat
deriving DecidableEq

/-- CryptoManager.generate_key (crypto.py 136-156): creates fresh valid
key material (44-byte encoding of 32 random bytes) and persists it over
the key file. -/
def generate_key (st : KeyState) : KeyData × KeyState :=
  let kd : KeyData := ⟨44, true, st.ctr⟩
  (kd, ⟨some kd, st.ctr + 1⟩)

/-- CryptoManager._is_valid_key (crypto.py 120-134): the length must be
44 and the content must decode as a Fernet key. -/
def is_valid_key (kd : KeyData) : Bool :=
  kd.len == 44 && kd.decodable

/-- CryptoManager.load_key (crypto.py 106-118).  The source raises
inside the try block when `len(key_data) != 44 and not
self._is_valid_key(key_data)` and the except branch then regenerates;
an absent or unreadable file also lands in the except branch.  Note the
conjunction is taken verbatim from the source. -/
def load_key (st : KeyState) : KeyData × KeyState :=
  match st.keyFile with
  | none => generate_key st
  | some kd =>
      if kd.len != 44 && !(is_valid_key kd) then generate_key st
      else (kd, st)

/-- One line of the entry log file (already stripped of its trailing
newline): either a Fernet ciphertext token or other text. -/
inductive Line where
  | token (keyId : Nat) (payload : String)
  | text (s : String)
deriving DecidableEq

/-- Python str.strip() is empty, i.e. every character is whitespace. -/
def pyBlank (s : String) : Bool :=
  s.data.all Char.isWhitespace

/-- Whether a line of the log file strips to the empty string.  A
Fernet token is non-empty base64 text, hence never blank. -/
def lineBlank : Line → Bool
  | .token _ _ => false
  | .text s => pyBlank s

/-- Fernet decryption with the key of identity k: succeeds exactly on a
token produced under the same key; any other line raises InvalidToken
in the source, modelled as none. -/
def decryptLine (k : Nat) : Line → Option String
  | .token kid p => if kid == k then some p else none
  | .text _ => none

/-- CryptoManager.encrypt (crypto.py 158-162): loads the key (possibly
regenerating it) and produces a token under the loaded key. -/
def CM_encrypt (st : KeyState) (p : String) : Line × KeyState :=
  let r := load_key st
  (Line.token r.1.keyId p, r.2)

/-- CryptoManager.decrypt (crypto.py 164-168): loads the key (possibly
regenerating it) and decrypts the token with it; failure raises
cryptography.fernet.InvalidToken, modelled as none. -/
def CM_decrypt (st : KeyState) (c : Line) : Option String × KeyState :=
  let r := load_key st
  (decryptLine r.1.keyId c, r.2)

/-- The backing entry log file: none when absent, otherwise its list of
lines.  EntryStorage operations below are parameterised by the identity
k of the active key, which models the situation, assumed by every
storage claim, of a valid key file in place: load_key then returns the
same key on every call without touching the key file (see
cipher_roundtrip). -/
abbrev DiaryFile := Option (List Line)

/-- Serialisation of one entry (storage.py 122):
`--- Entry on \x7bdate\x7d | Mood: \x7bmood\x7d ---` newline content. -/
def serialize (date mood content : String) : String :=
  "--- Entry on " ++ date ++ " | Mood: " ++ mood ++ " ---\n" ++ content

/-- EntryStorage.save_entry (storage.py 111-140): a body that strips to
the empty string is rejected with False and nothing is written;
otherwise the serialised entry is encrypted as one token and appended
as one line (open mode a creates the absent file). -/
def save_entry (k : Nat) (content mood date : String) (file : DiaryFile) :
    Bool × DiaryFile :=
  if pyBlank content then (false, file)
  else (true, some (file.getD [] ++ [Line.token k (serialize date mood content)]))

/-- Sequence of save_entry calls on (content, mood, date) triples,
threading the file state and collecting the returned booleans. -/
def save_all (k : Nat) (items : List (String × String × String)) (file : DiaryFile) :
    List Bool × DiaryFile :=
  match items with
  | [] => ([], file)
  | it :: rest =>
      let r := save_entry k it.1 it.2.1 it.2.2 file
      let r' := save_all k rest r.2
      (r.1 :: r'.1, r'.2)

/-- EntryStorage._can_decrypt_any (storage.py 331-341): skip blank
lines, return true on the first line that decrypts, false when none
does. -/
def can_decrypt_any (k : Nat) : List Line → Bool
  | [] => false
  | l :: ls =>
      if lineBlank l then can_decrypt_any k ls
      else
        match decryptLine k l with
        | some _ => true
        | none => can_decrypt_any k ls

/-- The per-line loop of EntryStorage.read_entries (storage.py
198-209): blank lines are skipped; each non-blank line is decrypted,
appended to the entries on success and counted on failure. -/
def read_loop (k : Nat) : List Line → List String × Nat
  | [] => ([], 0)
  | l :: ls =>
      if lineBlank l then read_loop k ls
      else
        match decryptLine k l with
        | some p =>
            let r := read_loop k ls
            (p :: r.1, r.2)
        | none =>
            let r := read_loop k ls
            (r.1, r.2 + 1)

/-- Outcome of EntryStorage.read_entries: the decrypted entries in file
order, the number of non-blank lines that failed to decrypt (the count
shown in the warning dialogs, storage.py 211-228), and whether the
recovery block (storage.py 150-196) was entered. -/
structure ReadResult where
  entries : List String
  failures : Nat
  recovery : Bool
deriving DecidableEq

/-- EntryStorage.read_entries (storage.py 142-232).  An absent file
yields no entries.  The recovery block is entered exactly when the line
list is non-empty and _can_decrypt_any fails; that block only ever
shows dialogs, copies key or backup files, or re-executes the process
(storage.py 184, a path with no return value, outside this model of the
returning paths) - it never writes to the data file, and on every
returning path the per-line loop then runs. -/
def read_entries (k : Nat) (file : DiaryFile) : ReadResult :=
  match file with
  | none => ⟨[], 0, false⟩
  | some lines =>
      let r := read_loop k lines
      ⟨r.1, r.2, !lines.isEmpty && !can_decrypt_any k lines⟩

/-- read_entries together with the data file it leaves behind: no path
of the source opens the data file for writing, so the file is returned
unchanged. -/
def read_entries_op (k : Nat) (file : DiaryFile) : ReadResult × DiaryFile :=
  (read_entries k file, file)

/-- EntryStorage.rewrite_entries (storage.py 374-383): truncate and
write one encrypted line per entry. -/
def rewrite_entries (k : Nat) (entries : List String) : DiaryFile :=
  some (entries.map (fun e => Line.token k e))

/-- EntryStorage.delete_entry (storage.py 343-350): read all entries,
keep those not equal to the target, rewrite. -/
def delete_entry (k : Nat) (target : String) (file : DiaryFile) : DiaryFile :=
  rewrite_entries k ((read_entries k file).entries.filter (fun e => e != target))

/-- Python list.takeWhile analogue used below: the part of the string
before the first occurrence of the character c, or the whole string
when c does not occur - this is split(c)[0]. -/
def beforeChar (c : Char) (s : String) : String :=
  ⟨s.data.takeWhile (fun a => a != c)⟩

/-- Python str.replace(pat, "") restricted to removal, by fuel
recursion over the character list (the fuel is the list length; every
step consumes at least one character). -/
def removeAll (pat : List Char) : Nat → List Char → List Char
  | _, [] => []
  | 0, l => l
  | fuel + 1, c :: cs =>
      if pat.isPrefixOf (c :: cs) then removeAll pat fuel (List.drop (pat.length - 1) cs)
      else c :: removeAll pat fuel cs

/-- Python str.strip(): drop whitespace from both ends. -/
def pyStrip (s : String) : String :=
  ⟨((s.data.dropWhile Char.isWhitespace).reverse.dropWhile Char.isWhitespace).reverse⟩

/-- The date extraction shared by delete_entries_by_date (storage.py
360-363) and organize_entries_by_date (storage.py 403-406):
`entry.split("\n")[0].split("|")[0].replace("--- Entry on ", "").strip()`.
Every step is total, so the `except` branches guarding it in the source
(storage.py 366-368 and 412-414) are unreachable: every entry parses to
some date string. -/
def parsedDate (entry : String) : String :=
  let beforeBar := (beforeChar '|' (beforeChar '\n' entry)).data
  pyStrip ⟨removeAll ("--- Entry on ".data) beforeBar.length beforeBar⟩

/-- EntryStorage.delete_entries_by_date (storage.py 352-372): read all
entries, keep those whose parsed date differs from the argument,
rewrite. -/
def delete_entries_by_date (k : Nat) (d : String) (file : DiaryFile) : DiaryFile :=
  rewrite_entries k
    ((read_entries k file).entries.filter (fun e => parsedDate e != d))

/-- Insertion into the Python dict of organize_entries_by_date,
modelled as an association list in insertion order: append to an
existing group, else add a new group at the end. -/
def insertGroup (m : List (String × List String)) (d e : String) :
    List (String × List String) :=
  match m with
  | [] => [(d, [e])]
  | (d₀, es) :: rest =>
      if d₀ = d then (d₀, es ++ [e]) :: rest
      else (d₀, es) :: insertGroup rest d e

/-- The grouping loop of organize_entries_by_date over a list of
decrypted entries. -/
def organizeList (entries : List String) : List (String × List String) :=
  entries.foldl (fun m e => insertGroup m (parsedDate e) e) []

/-- EntryStorage.organize_entries_by_date (storage.py 396-416): group
the decrypted entries by their parsed date, in insertion order. -/
def organize_entries_by_date (k : Nat) (file : DiaryFile) :
    List (String × List String) :=
  organizeList (read_entries k file).entries

/-- Dict lookup on the association-list model. -/
def lookupGroup (m : List (String × List String)) (d : String) :
    Option (List String) :=
  match m with
  | [] => none
  | (d₀, es) :: rest => if d₀ = d then some es else lookupGroup rest d

/-- Number of entries grouped under a date (0 when the date is not a
key of the mapping). -/
def groupCount (m : List (String × List String)) (d : String) : Nat :=
  ((lookupGroup m d).getD []).length

/-- Content of the password file as read by AuthManager.load_password:
absent, present but stripping to empty, or holding one line. -/
inductive PwFile where
  | absent
  | emptyFile
  | stored (l : Line)
deriving DecidableEq

/-- Error outcomes of AuthManager.load_password (auth.py 110-126):
FileNotFoundError when the file is absent; ValueError with message
`Password file is corrupted` from the `except DecryptionError` branch;
ValueError with message `Failed to load password: ...` from the generic
`except Exception` branch. -/
inductive AuthError where
  | fileNotFound
  | passwordCorrupted
  | loadFailed
deriving DecidableEq

/-- AuthManager.load_password (auth.py 110-126).  It calls
CryptoManager.decrypt, whose failure raises
cryptography.fernet.InvalidToken; only try_decrypt converts that to
DecryptionError, and load_password does not use try_decrypt, so the
`except DecryptionError` branch never catches and every in-try failure
(empty file, undecryptable content) lands in the generic branch.  The
key state is threaded through the decrypt call and the password file is
returned unchanged (no path writes it). -/
def load_password (st : KeyState) (pf : PwFile) :
    Except AuthError String × KeyState × PwFile :=
  match pf with
  | .absent => (.error .fileNotFound, st, pf)
  | .emptyFile => (.error .loadFailed, st, pf)
  | .stored l =>
      let r := CM_decrypt st l
      match r.1 with
      | some p => (.ok p, r.2, pf)
      | none => (.error .loadFailed, r.2, pf)

end Diary

namespace Diary

/-- Claim C1: load_key accepts a stored key whose encoding has length
44 but is not decodable as a Fernet key, returning it unchanged without
regenerating, although _is_valid_key rejects it.  The conjunction
`len(key_data) != 44 and not self._is_valid_key(key_data)` short
circuits to false whenever the length is 44, so the decodability check
never fires for the only inputs where it matters. -/
theorem load_key_keeps_undecodable_44 :
    load_key ⟨some ⟨44, false, 5⟩, 0⟩ = (⟨44, false, 5⟩, ⟨some ⟨44, false, 5⟩, 0⟩) ∧
    is_valid_key ⟨44, false, 5⟩ = false := by
  decide

/-- Claim C2: with the same valid key file in place across both calls,
decrypting the encryption of any plaintext returns that plaintext, and
neither call changes the key-file state. -/
theorem cipher_roundtrip (st : KeyState) (kd : KeyData) (p : String)
    (hfile : st.keyFile = some kd) (hvalid : is_valid_key kd = true) :
    CM_decrypt (CM_encrypt st p).2 (CM_encrypt st p).1 = (some p, st) ∧
    (CM_encrypt st p).2 = st := by
  have hload : load_key st = (kd, st) := by
    unfold load_key
    rw [hfile]
    simp [hvalid]
  constructor
  · simp [CM_encrypt, CM_decrypt, hload, decryptLine]
  · simp [CM_encrypt, hload]

/-- Witness for cipher_roundtrip at a concrete valid key file. -/
theorem cipher_roundtrip_witness :
    CM_decrypt (CM_encrypt ⟨some ⟨44, true, 7⟩, 0⟩ "hi").2
        (CM_encrypt ⟨some ⟨44, true, 7⟩, 0⟩ "hi").1 = (some "hi", ⟨some ⟨44, true, 7⟩, 0⟩) ∧
    (CM_encrypt ⟨some ⟨44, true, 7⟩, 0⟩ "hi").2 = (⟨some ⟨44, true, 7⟩, 0⟩ : KeyState) :=
  cipher_roundtrip ⟨some ⟨44, true, 7⟩, 0⟩ ⟨44, true, 7⟩ "hi" rfl rfl

/-- A blank line never decrypts: it is not a Fernet token. -/
theorem blank_decrypt_none (k : Nat) (l : Line) (h : lineBlank l = true) :
    decryptLine k l = none := by
  cases l with
  | token kid p => simp [lineBlank] at h
  | text s => rfl

/-- The read loop over a file of tokens produced under the active key
recovers all payloads in order with no failures. -/
theorem read_loop_tokens (k : Nat) (xs : List String) :
    read_loop k (xs.map (fun e => Line.token k e)) = (xs, 0) := by
  induction xs with
  | nil => rfl
  | cons x xs ih => simp [read_loop, lineBlank, decryptLine, ih]

/-- Reading back a file produced by rewrite_entries under the active
key returns exactly the written entries, no failures, no recovery. -/
theorem read_entries_rewrite (k : Nat) (xs : List String) :
    read_entries k (rewrite_entries k xs) = ⟨xs, 0, false⟩ := by
  cases xs with
  | nil => rfl
  | cons x xs =>
    simp [read_entries, rewrite_entries, can_decrypt_any, lineBlank, decryptLine]
    have h := read_loop_tokens k (x :: xs)
    simp [rewrite_entries] at h ⊢
    simp [h]

/-- Dropping the blank lines of a file does not change the read loop. -/
theorem read_loop_filter_blank (k : Nat) (lines : List Line) :
    read_loop k (lines.filter (fun l => !lineBlank l)) = read_loop k lines := by
  induction lines with
  | nil => rfl
  | cons l ls ih =>
    by_cases hb : lineBlank l
    · simp [hb, read_loop, ih]
    · cases hd : decryptLine k l <;> simp [hb, read_loop, hd, ih]

/-- On a file without blank lines the read loop returns the
decryptable payloads in order and counts the undecryptable lines. -/
theorem read_loop_no_blank (k : Nat) (lines : List Line)
    (h : ∀ l ∈ lines, lineBlank l = false) :
    read_loop k lines = (lines.filterMap (decryptLine k),
      (lines.filter (fun l => (decryptLine k l).isNone)).length) := by
  induction lines with
  | nil => rfl
  | cons l ls ih =>
    have hl : lineBlank l = false := h l (List.mem_cons_self l ls)
    have hrest := ih (fun x hx => h x (List.mem_cons_of_mem _ hx))
    cases hd : decryptLine k l <;>
      simp [read_loop, hl, hd, hrest, List.filterMap_cons]

/-- Decrypted and undecryptable lines together count every line. -/
theorem filterMap_add_filter_length (k : Nat) (lines : List Line) :
    (lines.filterMap (decryptLine k)).length +
      (lines.filter (fun l => (decryptLine k l).isNone)).length = lines.length := by
  induction lines with
  | nil => rfl
  | cons l ls ih =>
    cases hd : decryptLine k l <;> simp [List.filterMap_cons, hd] <;> omega

/-- _can_decrypt_any returns false exactly when no line decrypts. -/
theorem can_decrypt_any_false_iff (k : Nat) (lines : List Line) :
    can_decrypt_any k lines = false ↔ ∀ l ∈ lines, decryptLine k l = none := by
  induction lines with
  | nil => simp [can_decrypt_any]
  | cons l ls ih =>
    by_cases hb : lineBlank l
    · have hn := blank_decrypt_none k l hb
      simp [can_decrypt_any, hb, ih, hn]
    · cases hd : decryptLine k l with
      | some p => simp [can_decrypt_any, hb, hd]
      | none => simp [can_decrypt_any, hb, hd, ih]

/-- When no line decrypts, the read loop collects no entries. -/
theorem read_loop_all_none (k : Nat) (lines : List Line)
    (h : ∀ l ∈ lines, decryptLine k l = none) :
    (read_loop k lines).1 = [] := by
  induction lines with
  | nil => rfl
  | cons l ls ih =>
    have hl := h l (List.mem_cons_self l ls)
    have hrest := ih (fun x hx => h x (List.mem_cons_of_mem _ hx))
    by_cases hb : lineBlank l <;> simp [read_loop, hb, hl, hrest]

/-- Claim C10: lines that strip to the empty string are skipped by
read_entries: removing them from the file changes neither the returned
entries nor the reported decryption-failure count. -/
theorem blank_lines_skipped (k : Nat) (lines : List Line) :
    (read_entries k (some (lines.filter (fun l => !lineBlank l)))).entries =
      (read_entries k (some lines)).entries ∧
    (read_entries k (some (lines.filter (fun l => !lineBlank l)))).failures =
      (read_entries k (some lines)).failures := by
  constructor <;> simp [read_entries, read_loop_filter_blank]

/-- Claim C7: delete_entry removes every stored entry whose decrypted
text equals the target, all duplicates included, and keeps in order
exactly the entries whose decrypted text differs from the target. -/
theorem delete_entry_filters (k : Nat) (target : String) (file : DiaryFile) :
    (read_entries k (delete_entry k target file)).entries =
      (read_entries k file).entries.filter (fun e => e != target) ∧
    target ∉ (read_entries k (delete_entry k target file)).entries := by
  have h := read_entries_rewrite k
    ((read_entries k file).entries.filter (fun e => e != target))
  refine ⟨by rw [delete_entry, h], ?_⟩
  rw [delete_entry, h]
  intro hmem
  have := List.of_mem_filter hmem
  simp at this

/-- Witness for delete_entry_filters on a file with a duplicated
target entry. -/
theorem delete_entry_filters_witness :
    (read_entries 0 (delete_entry 0 "a"
      (some [Line.token 0 "a", Line.token 0 "b", Line.token 0 "a"]))).entries =
      (read_entries 0
        (some [Line.token 0 "a", Line.token 0 "b", Line.token 0 "a"])).entries.filter
        (fun e => e != "a") ∧
    "a" ∉ (read_entries 0 (delete_entry 0 "a"
      (some [Line.token 0 "a", Line.token 0 "b", Line.token 0 "a"]))).entries :=
  delete_entry_filters 0 "a" (some [Line.token 0 "a", Line.token 0 "b", Line.token 0 "a"])

/-- Claim C4: on a file of non-blank lines of which some but not all
fail to decrypt, read_entries returns exactly the decryptable entries
in file order, reports the number of failing lines, does not enter the
recovery block, and leaves the backing file unchanged. -/
theorem partial_decrypt_read (k : Nat) (lines : List Line)
    (hnb : ∀ l ∈ lines, lineBlank l = false)
    (hpos : 0 < (lines.filter (fun l => (decryptLine k l).isNone)).length)
    (hlt : (lines.filter (fun l => (decryptLine k l).isNone)).length < lines.length) :
    (read_entries_op k (some lines)).1.entries = lines.filterMap (decryptLine k) ∧
    (read_entries_op k (some lines)).1.entries.length =
      lines.length - (lines.filter (fun l => (decryptLine k l).isNone)).length ∧
    (read_entries_op k (some lines)).1.failures =
      (lines.filter (fun l => (decryptLine k l).isNone)).length ∧
    (read_entries_op k (some lines)).1.recovery = false ∧
    (read_entries_op k (some lines)).2 = some lines := by
  have hloop := read_loop_no_blank k lines hnb
  have hsum := filterMap_add_filter_length k lines
  refine ⟨?_, ?_, ?_, ?_, rfl⟩
  · simp [read_entries_op, read_entries, hloop]
  · simp [read_entries_op, read_entries, hloop]
    omega
  · simp [read_entries_op, read_entries, hloop]
  · by_cases hc : can_decrypt_any k lines
    · simp [read_entries_op, read_entries, hc]
    · exfalso
      have hall := (can_decrypt_any_false_iff k lines).mp (by simpa using hc)
      have hself : lines.filter (fun l => (decryptLine k l).isNone) = lines := by
        apply List.filter_eq_self.mpr
        intro a ha
        simp [hall a ha]
      rw [hself] at hlt
      omega

/-- Witness for partial_decrypt_read: two lines, one decryptable. -/
theorem partial_decrypt_read_witness :
    (read_entries_op 0 (some [Line.token 0 "a", Line.token 1 "b"])).1.entries =
      [Line.token 0 "a", Line.token 1 "b"].filterMap (decryptLine 0) ∧
    (read_entries_op 0 (some [Line.token 0 "a", Line.token 1 "b"])).1.entries.length =
      ([Line.token 0 "a", Line.token 1 "b"] : List Line).length -
        ([Line.token 0 "a", Line.token 1 "b"].filter
          (fun l => (decryptLine 0 l).isNone)).length ∧
    (read_entries_op 0 (some [Line.token 0 "a", Line.token 1 "b"])).1.failures =
      ([Line.token 0 "a", Line.token 1 "b"].filter
        (fun l => (decryptLine 0 l).isNone)).length ∧
    (read_entries_op 0 (some [Line.token 0 "a", Line.token 1 "b"])).1.recovery = false ∧
    (read_entries_op 0 (some [Line.token 0 "a", Line.token 1 "b"])).2 =
      some [Line.token 0 "a", Line.token 1 "b"] :=
  partial_decrypt_read 0 [Line.token 0 "a", Line.token 1 "b"]
    (by decide) (by decide) (by decide)

/-- Claim C5: the recovery block of read_entries is entered exactly
when the file has at least one line and none of its lines decrypts
with the current key, and in that situation no entries are returned.
The block runs before the per-line loop and the reporting dialogs; its
key-selection path re-executes the process and so never returns. -/
theorem recovery_trigger_iff (k : Nat) (lines : List Line) :
    ((read_entries k (some lines)).recovery = true ↔
      lines ≠ [] ∧ ∀ l ∈ lines, decryptLine k l = none) ∧
    ((∀ l ∈ lines, decryptLine k l = none) →
      (read_entries k (some lines)).entries = []) := by
  constructor
  · simp only [read_entries, Bool.and_eq_true, Bool.not_eq_true']
    rw [can_decrypt_any_false_iff]
    simp [List.isEmpty_iff]
  · intro h
    simp [read_entries, read_loop_all_none k lines h]

/-- Witness for recovery_trigger_iff: a one-line file encrypted under
another key triggers recovery and yields no entries. -/
theorem recovery_trigger_iff_witness :
    (read_entries 0 (some [Line.token 1 "x"])).recovery = true ∧
    (read_entries 0 (some [Line.token 1 "x"])).entries = [] :=
  ⟨(recovery_trigger_iff 0 [Line.token 1 "x"]).1.mpr ⟨by decide, by decide⟩,
   (recovery_trigger_iff 0 [Line.token 1 "x"]).2 (by decide)⟩

/-- Saving a sequence of non-blank entries onto an existing line list
appends one token per entry and returns True each time. -/
theorem save_all_tokens (k : Nat) :
    ∀ (items : List (String × String × String)) (ls : List Line),
      (∀ it ∈ items, pyBlank it.1 = false) →
      save_all k items (some ls) =
        (items.map (fun _ => true),
         some (ls ++ items.map (fun it => Line.token k (serialize it.2.2 it.2.1 it.1)))) := by
  intro items
  induction items with
  | nil => intro ls _; simp [save_all]
  | cons it rest ih =>
    intro ls hnb
    have h1 : pyBlank it.1 = false := hnb it (List.mem_cons_self _ _)
    have hr : ∀ x ∈ rest, pyBlank x.1 = false :=
      fun x hx => hnb x (List.mem_cons_of_mem _ hx)
    simp [save_all, save_entry, h1, ih _ hr]

/-- Claim C3: starting from an empty or absent log, saving any
sequence of non-blank bodies returns True for each and a subsequent
read returns exactly the saved entries in order, while saving a blank
body returns False and leaves the file unchanged. -/
theorem save_then_read (k : Nat) (items : List (String × String × String))
    (f₀ : DiaryFile) (h₀ : f₀ = none ∨ f₀ = some [])
    (hnb : ∀ it ∈ items, pyBlank it.1 = false) :
    (save_all k items f₀).1 = items.map (fun _ => true) ∧
    (read_entries k (save_all k items f₀).2).entries =
      items.map (fun it => serialize it.2.2 it.2.1 it.1) ∧
    ∀ content mood date file, pyBlank content = true →
      save_entry k content mood date file = (false, file) := by
  have hmain : (save_all k items f₀).1 = items.map (fun _ => true) ∧
      (read_entries k (save_all k items f₀).2).entries =
        items.map (fun it => serialize it.2.2 it.2.1 it.1) := by
    cases items with
    | nil => rcases h₀ with h | h <;> subst h <;> exact ⟨rfl, rfl⟩
    | cons it rest =>
      have h1 : pyBlank it.1 = false := hnb it (List.mem_cons_self _ _)
      have hr : ∀ x ∈ rest, pyBlank x.1 = false :=
        fun x hx => hnb x (List.mem_cons_of_mem _ hx)
      have hstep : save_entry k it.1 it.2.1 it.2.2 f₀ =
          (true, some [Line.token k (serialize it.2.2 it.2.1 it.1)]) := by
        rcases h₀ with h | h <;> subst h <;> simp [save_entry, h1]
      have hrest := save_all_tokens k rest
        [Line.token k (serialize it.2.2 it.2.1 it.1)] hr
      have hread := read_entries_rewrite k
        ((it :: rest).map (fun it => serialize it.2.2 it.2.1 it.1))
      constructor
      · simp [save_all, hstep, hrest]
      · simp only [save_all, hstep, hrest]
        simp only [rewrite_entries, List.map_map] at hread
        simp only [List.map_cons] at hread ⊢
        simpa using congrArg ReadResult.entries hread
  exact ⟨hmain.1, hmain.2,
    fun content mood date file hb => by simp [save_entry, hb]⟩

/-- Witness for save_then_read: two saves onto an absent file, plus a
rejected blank save. -/
theorem save_then_read_witness :
    (save_all 0 [("a", "m", "x"), ("b", "n", "y")] none).1 = [true, true] ∧
    (read_entries 0 (save_all 0 [("a", "m", "x"), ("b", "n", "y")] none).2).entries =
      [serialize "x" "m" "a", serialize "y" "n" "b"] ∧
    save_entry 0 " " "m" "x" none = (false, none) := by
  have h := save_then_read 0 [("a", "m", "x"), ("b", "n", "y")] none
    (Or.inl rfl) (by decide)
  exact ⟨by simpa using h.1, by simpa using h.2.1,
    h.2.2 " " "m" "x" none (by decide)⟩

/-- Looking a date up after one dict insertion: the inserted date now
ends in a group extended by the new entry, every other date is
untouched. -/
theorem lookupGroup_insertGroup (m : List (String × List String)) (d e d' : String) :
    lookupGroup (insertGroup m d e) d' =
      if d' = d then some (((lookupGroup m d).getD []) ++ [e])
      else lookupGroup m d' := by
  induction m with
  | nil =>
    by_cases h : d' = d
    · subst h; simp [insertGroup, lookupGroup]
    · rw [if_neg h]
      simp [insertGroup, lookupGroup, Ne.symm h]
  | cons p rest ih =>
    obtain ⟨d₀, es⟩ := p
    by_cases h₀ : d₀ = d
    · subst h₀
      simp only [insertGroup, if_pos rfl, lookupGroup]
      by_cases h' : d' = d₀
      · subst h'; simp
      · simp [h', Ne.symm h']
    · simp only [insertGroup, if_neg h₀, lookupGroup]
      by_cases h₁ : d₀ = d'
      · subst h₁
        simp [h₀, Ne.symm h₀]
      · simp only [if_neg h₁, if_neg h₀]
        rw [ih]

/-- The group a date holds after folding the insertion loop: whatever
the accumulator held, extended by the entries parsing to that date, in
order. -/
theorem lookupGroup_foldl_getD (d : String) :
    ∀ (es : List String) (m : List (String × List String)),
      ((lookupGroup (es.foldl (fun m e => insertGroup m (parsedDate e) e) m) d).getD []) =
        ((lookupGroup m d).getD []) ++ es.filter (fun e => parsedDate e == d) := by
  intro es
  induction es with
  | nil => intro m; simp
  | cons e rest ih =>
    intro m
    simp only [List.foldl_cons]
    rw [ih, lookupGroup_insertGroup]
    by_cases h : parsedDate e = d
    · rw [if_pos h.symm]
      simp [List.filter_cons, h, List.append_assoc]
    · rw [if_neg (fun hh => h hh.symm)]
      simp [List.filter_cons, h]

/-- A date is absent from the fold result exactly when it was absent
from the accumulator and no entry parses to it. -/
theorem lookupGroup_foldl_none (d : String) :
    ∀ (es : List String) (m : List (String × List String)),
      lookupGroup (es.foldl (fun m e => insertGroup m (parsedDate e) e) m) d = none ↔
        lookupGroup m d = none ∧ es.filter (fun e => parsedDate e == d) = [] := by
  intro es
  induction es with
  | nil => intro m; simp
  | cons e rest ih =>
    intro m
    simp only [List.foldl_cons]
    rw [ih, lookupGroup_insertGroup]
    by_cases h : parsedDate e = d
    · rw [if_pos h.symm]
      simp [List.filter_cons, h]
    · rw [if_neg (fun hh => h hh.symm)]
      simp [List.filter_cons, h]

/-- The size of a date group is the number of entries parsing to that
date. -/
theorem groupCount_organizeList (es : List String) (d : String) :
    groupCount (organizeList es) d =
      (es.filter (fun e => parsedDate e == d)).length := by
  unfold groupCount organizeList
  rw [lookupGroup_foldl_getD d es []]
  simp [lookupGroup]

/-- A date is no key of the grouping exactly when no entry parses to
it. -/
theorem lookup_organizeList_none_iff (es : List String) (d : String) :
    lookupGroup (organizeList es) d = none ↔
      es.filter (fun e => parsedDate e == d) = [] := by
  unfold organizeList
  rw [lookupGroup_foldl_none d es []]
  simp [lookupGroup]

/-- Claim C6: after delete_entries_by_date D, the grouping returned by
organize_entries_by_date has no key D, and the group size of every
other date is unchanged.  The hypothesis mirrors the claim: every line
of the log decrypts with the current key. -/
theorem delete_by_date_organize (k : Nat) (D : String) (lines : List Line)
    (hdec : ∀ l ∈ lines, (decryptLine k l).isSome = true) :
    lookupGroup (organize_entries_by_date k
      (delete_entries_by_date k D (some lines))) D = none ∧
    ∀ D', D' ≠ D →
      groupCount (organize_entries_by_date k
        (delete_entries_by_date k D (some lines))) D' =
        groupCount (organize_entries_by_date k (some lines)) D' := by
  have hread := read_entries_rewrite k
    ((read_entries k (some lines)).entries.filter (fun e => parsedDate e != D))
  have h1 : organize_entries_by_date k (delete_entries_by_date k D (some lines)) =
      organizeList ((read_entries k (some lines)).entries.filter
        (fun e => parsedDate e != D)) := by
    unfold organize_entries_by_date delete_entries_by_date
    rw [hread]
  constructor
  · rw [h1, lookup_organizeList_none_iff, List.filter_filter]
    apply List.filter_eq_nil_iff.mpr
    intro a _
    simp [bne_iff_ne]
  · intro D' hne
    rw [h1]
    have h2 : organize_entries_by_date k (some lines) =
        organizeList (read_entries k (some lines)).entries := rfl
    rw [h2, groupCount_organizeList, groupCount_organizeList, List.filter_filter]
    congr 1
    apply List.filter_congr
    intro a _
    by_cases h : parsedDate a = D'
    · simp [h, bne_iff_ne, hne]
    · simp [h]

/-- Witness for delete_by_date_organize on a two-date log. -/
theorem delete_by_date_organize_witness :
    lookupGroup (organize_entries_by_date 0 (delete_entries_by_date 0 "d1"
      (some [Line.token 0 (serialize "d1" "m" "a"),
             Line.token 0 (serialize "d2" "m" "b")]))) "d1" = none ∧
    groupCount (organize_entries_by_date 0 (delete_entries_by_date 0 "d1"
      (some [Line.token 0 (serialize "d1" "m" "a"),
             Line.token 0 (serialize "d2" "m" "b")]))) "d2" =
      groupCount (organize_entries_by_date 0
        (some [Line.token 0 (serialize "d1" "m" "a"),
               Line.token 0 (serialize "d2" "m" "b")])) "d2" := by
  have h := delete_by_date_organize 0 "d1"
    [Line.token 0 (serialize "d1" "m" "a"), Line.token 0 (serialize "d2" "m" "b")]
    (by decide)
  exact ⟨h.1, h.2 "d2" (by decide)⟩

/-- Claim C8: an entry whose first line does not match the header
pattern is included in the flat sequence read_entries returns, but
organize_entries_by_date also groups it, under the degenerate date its
text parses to, instead of excluding it: the split, replace and strip
steps are total, so the except branch meant to skip unparseable
entries (storage.py 412-414) never runs. -/
theorem organize_includes_unparsed :
    (read_entries 0 (some [Line.token 0 "x"])).entries = ["x"] ∧
    lookupGroup (organize_entries_by_date 0 (some [Line.token 0 "x"])) "x" =
      some ["x"] := by
  decide

/-- Claim C9: with a valid key file in place and a password file whose
token was produced under a different key, load_password raises the
generic load failure, not the corruption classification: the source
calls CryptoManager.decrypt, which raises InvalidToken, while only
try_decrypt would convert that to the DecryptionError its corruption
branch catches.  The key state and the password file are returned
unchanged. -/
theorem load_password_generic_error :
    load_password ⟨some ⟨44, true, 0⟩, 3⟩ (PwFile.stored (Line.token 1 "pw")) =
      (Except.error AuthError.loadFailed, ⟨some ⟨44, true, 0⟩, 3⟩,
        PwFile.stored (Line.token 1 "pw")) ∧
    AuthError.loadFailed ≠ AuthError.passwordCorrupted :=
  ⟨rfl, by decide⟩

end Diary
